import Mathlib

/-!
# Verification of the mdbook-typst-pdf conversion engine

A shallow embedding of `src/convert.rs` (the conversion engine of
mdbook-typst-pdf) and proofs about it.

Modelling conventions:
* Rust `String`/`&str` values are Lean `String`s; character-level
  transformations work on `List Char` (`String.data`).  Byte indices of the
  Rust code are modelled as character indices; the two coincide on ASCII
  data, and every index-sensitive datum in the source (the placeholder
  marker) is ASCII.
* Filesystem state is passed explicitly: a filesystem is a partial map from
  paths (lists of components) to file contents.  `fs::create_dir_all` is the
  identity on this model (directories are implicit).  `fs::copy` failure
  (missing source) is the error string "copy failed", standing for the OS
  error surfaced through `?` in the source.
* The upstream pulldown-cmark parser is an external collaborator: the
  translator consumes its event stream directly, so chapters carry a list of
  events rather than raw Markdown text.  `Event.html` (raw-markup) events are
  outside the event alphabet modelled here: no claim under consideration
  concerns the raw-markup recogniser.
* Fallible code returns `Except String`.
-/

namespace MdbookTypstPdf

/-! ## String helpers (models of Rust `str` operations) -/

/-- Does the list `s` start with the pattern `p`?  Model of Rust
`str::starts_with` at character granularity. -/
def startsWithL : List Char → List Char → Bool
  | _, [] => true
  | [], _ :: _ => false
  | c :: s, p :: ps => c = p && startsWithL s ps

/-- Index (in characters) of the first occurrence of `pat` in `s`, if any.
Model of Rust `str::find` with a string pattern. -/
def findSubstr (pat : List Char) : List Char → Option Nat
  | [] => if startsWithL [] pat then some 0 else none
  | c :: rest =>
    if startsWithL (c :: rest) pat then some 0
    else (findSubstr pat rest).map (· + 1)

/-- One fuelled scan step of `replaceAll`: the fuel only bounds the
recursion depth (each step consumes at least one character, so
`s.length` fuel is always enough) and exists to keep the recursion
structural. -/
def replaceAllGo (pat rep : List Char) : Nat → List Char → List Char
  | _, [] => []
  | 0, s => s
  | fuel + 1, c :: rest =>
    if startsWithL (c :: rest) pat ∧ pat ≠ [] then
      rep ++ replaceAllGo pat rep fuel (rest.drop (pat.length - 1))
    else
      c :: replaceAllGo pat rep fuel rest

/-- Replace every (leftmost, non-overlapping) occurrence of `pat` by `rep`.
Model of Rust `str::replace` with a string pattern. -/
def replaceAll (pat rep s : List Char) : List Char :=
  replaceAllGo pat rep s.length s

/-- Insert `t` into `s` at character index `i`.  Model of Rust
`String::insert_str`; Rust panics when the index is past the end or not a
character boundary, while this total model saturates — all theorems below
only use it in-range. -/
def insertAt (s : List Char) (i : Nat) (t : List Char) : List Char :=
  s.take i ++ t ++ s.drop i

/-- Split a list at every occurrence of the separator character.  Model of
Rust `str::split(char)`: the result is always non-empty, and splitting the
empty string yields `[[]]`. -/
def splitOnChar (sep : Char) : List Char → List (List Char)
  | [] => [[]]
  | c :: rest =>
    let r := splitOnChar sep rest
    if c = sep then [] :: r
    else
      match r with
      | [] => [[c]]
      | h :: t => (c :: h) :: t

theorem splitOnChar_ne_nil (sep : Char) (s : List Char) :
    splitOnChar sep s ≠ [] := by
  induction s with
  | nil => simp [splitOnChar]
  | cons c rest ih =>
    simp only [splitOnChar]
    by_cases h : c = sep
    · simp [h]
    · simp only [h, if_false]
      cases splitOnChar sep rest with
      | nil => simp
      | cons h t => simp

/-! ## The escaping policy (default branch of the `Event::Text` arm) -/

/-- The reserved Typst metacharacters escaped in plain prose, from the match
in the `Event::Text` arm of `convert_content`:
`'#' | '$' | '`' | '*' | '_' | '<' | '>' | '@'`. -/
def is_reserved (c : Char) : Bool :=
  c = '#' || c = '$' || c = Char.ofNat 96 || c = '*' || c = '_' ||
  c = '<' || c = '>' || c = '@'

/-- The default-context escaping loop of the `Event::Text` arm: each reserved
metacharacter is prefixed with a backslash; every other character passes
through unchanged. -/
def escapeChars : List Char → List Char
  | [] => []
  | c :: rest =>
    if is_reserved c then '\\' :: c :: escapeChars rest
    else c :: escapeChars rest

/-- String-level wrapper of `escapeChars`. -/
def escapeText (t : String) : String := ⟨escapeChars t.data⟩

/-- Strip exactly one escape character immediately before each reserved
metacharacter (the inverse direction of the round-trip property). -/
def stripEscapes : List Char → List Char
  | [] => []
  | c :: rest =>
    if c = '\\' then
      match rest with
      | [] => ['\\']
      | d :: rest' =>
        if is_reserved d then d :: stripEscapes rest'
        else '\\' :: stripEscapes (d :: rest')
    else c :: stripEscapes rest

/-! ## Regular expressions (model of the `regex` crate, enough for EMAIL_REGEX)

The source compiles `(?i)^\w+([\.-]?\w+)*@\w+([\.-]?\w+)*(.\w{2,3})+$` once
into `EMAIL_REGEX` and uses `is_match`.  With both anchors present,
`is_match` is language membership, modelled with Brzozowski derivatives. -/

/-- Regular expressions over characters, with predicate character classes. -/
inductive Rx where
  | fail : Rx
  | eps : Rx
  | cls (p : Char → Bool) : Rx
  | cat (r s : Rx) : Rx
  | alt (r s : Rx) : Rx
  | star (r : Rx) : Rx

/-- Does the regular expression accept the empty string? -/
def Rx.nullable : Rx → Bool
  | .fail => false
  | .eps => true
  | .cls _ => false
  | .cat r s => r.nullable && s.nullable
  | .alt r s => r.nullable || s.nullable
  | .star _ => true

/-- Brzozowski derivative with respect to one character. -/
def Rx.deriv : Rx → Char → Rx
  | .fail, _ => .fail
  | .eps, _ => .fail
  | .cls p, c => if p c then .eps else .fail
  | .cat r s, c =>
    if r.nullable then .alt (.cat (r.deriv c) s) (s.deriv c)
    else .cat (r.deriv c) s
  | .alt r s, c => .alt (r.deriv c) (s.deriv c)
  | .star r, c => .cat (r.deriv c) (.star r)

/-- Full (anchored) match: the whole string belongs to the language. -/
def Rx.isMatch (r : Rx) (s : List Char) : Bool :=
  (s.foldl Rx.deriv r).nullable

/-- One or more repetitions. -/
def Rx.plus (r : Rx) : Rx := .cat r (.star r)

/-- Zero or one repetition. -/
def Rx.opt (r : Rx) : Rx := .alt .eps r

/-- Model of `\w` of the regex crate: a word character.  (The crate's default is the
Unicode word class; the claims under consideration only involve ASCII, where
this model agrees.)  Case-insensitive by construction, so the `(?i)` flag of
the pattern changes nothing. -/
def wordChar : Rx := .cls (fun c => c.isAlphanum || c = '_')

/-- Model of `[\.-]` of the pattern: a literal dot or hyphen. -/
def dotOrDash : Rx := .cls (fun c => c = '.' || c = '-')

/-- Model of `.` of the pattern: any character except a newline (the regex crate's
default). -/
def anyChar : Rx := .cls (fun c => c ≠ '\n')

/-- A single literal character. -/
def Rx.chr (a : Char) : Rx := .cls (fun c => c = a)

/-- Model of `\w{2,3}`: two or three word characters. -/
def word23 : Rx := .cat wordChar (.cat wordChar (Rx.opt wordChar))

/-- The `EMAIL_REGEX` of `convert.rs`:
`(?i)^\w+([\.-]?\w+)*@\w+([\.-]?\w+)*(.\w{2,3})+$`.
Note the final group uses an UNESCAPED `.`, matching any character. -/
def email_regex : Rx :=
  .cat (Rx.plus wordChar)
    (.cat (.star (.cat (Rx.opt dotOrDash) (Rx.plus wordChar)))
      (.cat (Rx.chr '@')
        (.cat (Rx.plus wordChar)
          (.cat (.star (.cat (Rx.opt dotOrDash) (Rx.plus wordChar)))
            (Rx.plus (.cat anyChar word23))))))

/-- The `EMAIL_REGEX.is_match(dest_url)` check of the source. -/
def emailIsMatch (s : String) : Bool := email_regex.isMatch s.data

/-! ## The data model of the conversion engine -/

/-- The `EventType` enum of `convert.rs`: the context frames pushed onto
`event_stack`. -/
inductive EventType where
  | CodeBlockIndented : EventType
  | CodeBlockFenced (lang : String) : EventType
  | List : EventType
  | NumberedList : EventType
  | TableHead : EventType
  | Image : EventType
  | Heading : EventType
deriving DecidableEq, Repr

/-- Model of `pulldown_cmark::Alignment`. -/
inductive Alignment where
  | none | left | center | right
deriving DecidableEq, Repr

/-- Model of `pulldown_cmark::CodeBlockKind`. -/
inductive CodeBlockKind where
  | Indented : CodeBlockKind
  | Fenced (info : String) : CodeBlockKind
deriving DecidableEq, Repr

/-- Start tags of the upstream event stream (`pulldown_cmark::Tag`),
restricted to the fields `convert_content` reads. -/
inductive Tag where
  | Heading (level : Nat) : Tag
  | Emphasis : Tag
  | Strong : Tag
  | BlockQuote : Tag
  | List (start : Option Nat) : Tag
  | Item : Tag
  | Paragraph : Tag
  | Link (dest_url : String) : Tag
  | Table (align : List Alignment) : Tag
  | TableHead : Tag
  | TableRow : Tag
  | TableCell : Tag
  | Image (dest_url : String) : Tag
  | CodeBlock (kind : CodeBlockKind) : Tag
deriving DecidableEq, Repr

/-- End tags (`pulldown_cmark::TagEnd`), restricted likewise. -/
inductive TagEnd where
  | Heading : TagEnd
  | Emphasis : TagEnd
  | Strong : TagEnd
  | BlockQuote : TagEnd
  | List : TagEnd
  | Item : TagEnd
  | Paragraph : TagEnd
  | Link : TagEnd
  | Table : TagEnd
  | TableHead : TagEnd
  | TableRow : TagEnd
  | TableCell : TagEnd
  | Image : TagEnd
  | CodeBlock : TagEnd
deriving DecidableEq, Repr

/-- Model of `pulldown_cmark::Event`, restricted to the arms `convert_content`
handles (raw-HTML events are out of the modelled alphabet; `other` stands
for the `_ => ()` catch-all arm). -/
inductive Event where
  | start (t : Tag) : Event
  | stop (t : TagEnd) : Event
  | code (t : String) : Event
  | text (t : String) : Event
  | softBreak : Event
  | other : Event
deriving DecidableEq, Repr

/-! ## Filesystem model and render context -/

/-- A path is a list of components (`PathBuf::join` with a multi-component
relative path appends each component). -/
abbrev Path := List String

/-- A filesystem: a partial map from paths to file contents.  Directories
are implicit, so `fs::create_dir_all` is the identity here. -/
abbrev FS := Path → Option String

/-- Point update of a filesystem. -/
def fsUpdate (fs : FS) (p : Path) (c : String) : FS :=
  fun q => if q = p then some c else fs q

/-- Rust `base.join(rel)` for a relative path string. -/
def joinPath (base : Path) (rel : String) : Path :=
  base ++ (splitOnChar '/' rel.data).map (fun l => (⟨l⟩ : String))

/-- Rust `Path::parent`: drop the last component; `None` for an empty path. -/
def parentDir (p : Path) : Option Path :=
  match p with
  | [] => none
  | _ :: _ => some p.dropLast

/-- The inlined asset-copy block of `convert.rs` (spec §4.4 "materialize"):
take the destination's parent (`ok_or("destination not found")`), create it
(identity in this model), and copy the source over only when the destination
does not already exist.  A missing source makes `fs::copy` fail. -/
def materialize (fs : FS) (src dest : Path) : Except String FS :=
  match parentDir dest with
  | none => .error "destination not found"
  | some _ =>
    if (fs dest).isSome then .ok fs
    else
      match fs src with
      | some c => .ok (fsUpdate fs dest c)
      | none => .error "copy failed"

/-- The slice of `RenderContext` that `convert_content` reads. -/
structure RenderCtx where
  root : Path
  src : Option String
  destination : Path

/-- The path `ctx.root.join(src).join(rel)`: where a referenced asset is read from. -/
def srcAssetPath (ctx : RenderCtx) (sd rel : String) : Path :=
  joinPath (joinPath ctx.root sd) rel

/-- The path `ctx.destination.join(rel)`: where a referenced asset is copied to. -/
def destAssetPath (ctx : RenderCtx) (rel : String) : Path :=
  joinPath ctx.destination rel

/-! ## The translator state and its step function -/

/-- The mutable locals of `convert_content`: the heading side buffer, the
per-chapter "invisible heading already written" flag, and the context stack
(`event_stack`; the head of the list is the top, Rust's `last()`). -/
structure St where
  heading : String
  writen_invisible_heading : Bool
  event_stack : List EventType
deriving Repr

/-- The fresh state at the start of a chapter's translation. -/
def initSt : St := { heading := "", writen_invisible_heading := false, event_stack := [] }

/-- Model of `mdbook::utils::normalize_id` (a dependency of the source, kept
as in the mdbook crate): keep alphanumerics, `_` and `-` lowercased, map
whitespace to `-`, drop everything else. -/
def normalize_id (content : String) : String :=
  ⟨content.data.filterMap (fun ch =>
    if ch.isAlphanum || ch = '_' || ch = '-' then some ch.toLower
    else if ch = ' ' || ch = '\t' || ch = '\n' || ch = '\r' then some '-'
    else none)⟩

/-- The closing anchor written by the `TagEnd::Heading` arm:
`"] <{label}.html-{normalize_id(heading)}>"` followed by the `writeln!`
newline. -/
def headingAnchor (label heading : String) : String :=
  "] <" ++ label ++ ".html-" ++ normalize_id heading ++ ">\n"

/-- The recognised secondary info-string tokens of the fenced-code arms. -/
def isFerrisToken (l : String) : Bool :=
  l = "does_not_compile" || l = "not_desired_behavior" || l = "panics"

/-- Mapping of `Alignment` to the Typst keyword, from the `Tag::Table` arm. -/
def alignName : Alignment → String
  | .none => "auto"
  | .left => "left"
  | .center => "center"
  | .right => "right"

/-- Rust `lang.split(',')` collected to strings. -/
def splitLangs (lang : String) : List String :=
  (splitOnChar ',' lang.data).map (fun l => (⟨l⟩ : String))

/-- The loop over `langs.iter().skip(1)` of the `TagEnd::CodeBlock` arm: each
recognised token copies the matching ferris decoration asset and (re)sets the
suffix; unrecognised tokens do nothing. -/
def ferrisLoop (ctx : RenderCtx) (fs : FS) (suffix : String) :
    List String → Except String (FS × String)
  | [] => .ok (fs, suffix)
  | l :: rest =>
    if isFerrisToken l then
      let fp := "img/ferris/" ++ l ++ ".svg"
      match ctx.src with
      | none => .error "src not found"
      | some sd =>
        match materialize fs (srcAssetPath ctx sd fp) (destAssetPath ctx fp) with
        | .error e => .error e
        | .ok fs' =>
          ferrisLoop ctx fs'
            ("\n#place(\n  top + right,\n  figure(\n    image(\"" ++ fp ++
              "\", width: 10%)\n  )\n)\n]") rest
    else ferrisLoop ctx fs suffix rest

/-- The opening half of a rendered link, from the `Tag::Link` arm of
`convert_content` (spec §4.5 "classify_and_render"). -/
def linkOpen (label : String) (dest_url : String) : String :=
  if dest_url.startsWith "http://" || dest_url.startsWith "https://" then
    "#link(\"" ++ dest_url ++ "\")["
  else if emailIsMatch dest_url then
    "#link(\"mailto:" ++ dest_url ++ "\")["
  else if dest_url.startsWith "#" then
    "#link(<" ++ label ++ ".html" ++ dest_url.map (fun c => if c = '#' then '-' else c) ++ ">)["
  else
    "#link(<" ++ dest_url.map (fun c => if c = '#' then '-' else c) ++ ">)["

/-- The body of the event loop of `convert_content`: one event taken from
the parser, producing the updated locals, the updated filesystem and the
text appended to `content_str` by that arm. -/
def step (ctx : RenderCtx) (label : String) (invisible_heading : String)
    (st : St) (fs : FS) : Event → Except String (St × FS × String)
  | .start (.Heading level) =>
    .ok ({ st with event_stack := .Heading :: st.event_stack, heading := "" }, fs,
      "#heading(level: " ++ toString level ++ ", outlined: false)[")
  | .stop .Heading =>
    let st1 := { st with event_stack := st.event_stack.tail }
    let anchor := headingAnchor label st.heading
    if st.writen_invisible_heading then
      .ok (st1, fs, anchor)
    else
      .ok ({ st1 with writen_invisible_heading := true }, fs,
        anchor ++ invisible_heading ++ "\n")
  | .start .Emphasis => .ok (st, fs, "_")
  | .stop .Emphasis => .ok (st, fs, "_")
  | .start .Strong => .ok (st, fs, "*")
  | .stop .Strong => .ok (st, fs, "*")
  | .start .BlockQuote => .ok (st, fs, "#quote(block: true)[")
  | .stop .BlockQuote => .ok (st, fs, "]\n")
  | .start (.List Option.none) =>
    .ok ({ st with event_stack := .List :: st.event_stack }, fs, "")
  | .start (.List (Option.some _)) =>
    .ok ({ st with event_stack := .NumberedList :: st.event_stack }, fs, "")
  | .stop .List =>
    .ok ({ st with event_stack := st.event_stack.tail }, fs, "")
  | .start .Item =>
    match st.event_stack.head? with
    | some .List => .ok (st, fs, "- ")
    | some .NumberedList => .ok (st, fs, "+ ")
    | _ => .ok (st, fs, "- ")
  | .stop .Item => .ok (st, fs, "\n")
  | .start .Paragraph => .ok (st, fs, "")
  | .stop .Paragraph => .ok (st, fs, "\n\n")
  | .start (.Link dest_url) => .ok (st, fs, linkOpen label dest_url)
  | .stop .Link => .ok (st, fs, "]")
  | .start (.Table align) =>
    .ok (st, fs,
      "#table(\n  columns: " ++ toString align.length ++
        ",\n  inset: 10pt,\n  align: (" ++
        String.intercalate ", " (align.map alignName) ++ "),\n  \n")
  | .stop .Table => .ok (st, fs, ")\n")
  | .start .TableHead =>
    .ok ({ st with event_stack := .TableHead :: st.event_stack }, fs, "")
  | .stop .TableHead =>
    .ok ({ st with event_stack := st.event_stack.tail }, fs, "")
  | .start .TableRow => .ok (st, fs, "")
  | .stop .TableRow => .ok (st, fs, "")
  | .start .TableCell => .ok (st, fs, "[")
  | .stop .TableCell => .ok (st, fs, "],\n")
  | .start (.Image dest_url) =>
    let st1 := { st with event_stack := .Image :: st.event_stack }
    match ctx.src with
    | none => .error "src not found"
    | some sd =>
      match materialize fs (srcAssetPath ctx sd dest_url) (destAssetPath ctx dest_url) with
      | .error e => .error e
      | .ok fs' =>
        .ok (st1, fs', "#figure(\n  image(\"" ++ dest_url ++ "\")\n)")
  | .stop .Image =>
    .ok ({ st with event_stack := st.event_stack.tail }, fs, "\n")
  | .start (.CodeBlock .Indented) =>
    .ok ({ st with event_stack := .CodeBlockIndented :: st.event_stack }, fs, "````\n")
  | .start (.CodeBlock (.Fenced lang)) =>
    let st1 := { st with event_stack := .CodeBlockFenced lang :: st.event_stack }
    let langs := splitLangs lang
    if langs ≠ [] then
      let fpre := if (langs.drop 1).any isFerrisToken then "#columns(1)[\n" else ""
      .ok (st1, fs, fpre ++ "````" ++ langs.headD "" ++ "\n")
    else
      .ok (st1, fs, "````\n")
  | .stop .CodeBlock =>
    let finish := fun (out : Except String (FS × String)) =>
      match out with
      | .error e => Except.error e
      | .ok (fs', chunk) =>
        .ok ({ st with event_stack := st.event_stack.tail }, fs', chunk)
    match st.event_stack.head? with
    | some .CodeBlockIndented => finish (.ok (fs, "````\n"))
    | some (.CodeBlockFenced lang) =>
      let langs := splitLangs lang
      if langs ≠ [] then
        finish (match ferrisLoop ctx fs "" (langs.drop 1) with
          | .error e => .error e
          | .ok (fs', suffix) => .ok (fs', "````" ++ suffix ++ "\n"))
      else
        finish (.ok (fs, "````\n"))
    | _ => finish (.ok (fs, "````\n"))
  | .code t =>
    let st1 :=
      if st.event_stack.contains .Heading then { st with heading := st.heading ++ t } else st
    .ok (st1, fs, "```` " ++ t ++ " ````")
  | .text t =>
    let st1 :=
      if st.event_stack.contains .Heading then { st with heading := st.heading ++ t } else st
    match st.event_stack.head? with
    | some .CodeBlockIndented => .ok (st1, fs, t)
    | some (.CodeBlockFenced _) => .ok (st1, fs, t)
    | some .TableHead => .ok (st1, fs, "*" ++ t ++ "*")
    | some .Image => .ok (st1, fs, "/* " ++ t ++ " */")
    | _ => .ok (st1, fs, escapeText t)
  | .softBreak => .ok (st, fs, "\n")
  | .other => .ok (st, fs, "")

/-! ## convert_content: the per-chapter event loop -/

/-- The event loop of `convert_content`, with the filesystem threaded
explicitly: processes the events in order, concatenating each arm's output
into `content_str`. -/
def runEvents (ctx : RenderCtx) (label : String) (invisible_heading : String) :
    St → FS → List Event → Except String (St × FS × String)
  | st, fs, [] => .ok (st, fs, "")
  | st, fs, e :: es =>
    match step ctx label invisible_heading st fs e with
    | .error err => .error err
    | .ok (st', fs', chunk) =>
      match runEvents ctx label invisible_heading st' fs' es with
      | .error err => .error err
      | .ok (st'', fs'', out) => .ok (st'', fs'', chunk ++ out)

/-- The `convert_content` function of `convert.rs`.  The upstream parser is an external
collaborator, so the chapter's parsed event stream stands in for its raw
Markdown `content`.  Returns the emitted text and the updated filesystem. -/
def convert_content (ctx : RenderCtx) (events : List Event) (label : String)
    (invisible_heading : String) (fs : FS) : Except String (String × FS) :=
  match runEvents ctx label invisible_heading initSt fs events with
  | .error err => .error err
  | .ok (_, fs', out) => .ok (out, fs')

/-- The per-event trace of a chapter's translation: for each event, the
state just before it, the event, and the text that its arm appended.  The
trace stops at the first failing event. -/
def trace (ctx : RenderCtx) (label : String) (invisible_heading : String) :
    St → FS → List Event → List (St × Event × String)
  | _, _, [] => []
  | st, fs, e :: es =>
    match step ctx label invisible_heading st fs e with
    | .error _ => []
    | .ok (st', fs', chunk) => (st, e, chunk) :: trace ctx label invisible_heading st' fs' es

/-- Is this event the end of a heading? -/
def isHeadingEnd : Event → Bool
  | .stop .Heading => true
  | _ => false

/-- Does the step on this event write the invisible heading marker?  (From
the `TagEnd::Heading` arm: exactly when the event ends a heading and the
per-chapter flag is still unset.) -/
def writesMarker (st : St) (e : Event) : Bool :=
  isHeadingEnd e && !st.writen_invisible_heading

/-- Number of steps of a trace that write the invisible heading marker. -/
def markerCount (tr : List (St × Event × String)) : Nat :=
  (tr.filter fun x => writesMarker x.1 x.2.1).length

/-! ## Book driver: convert_book_item and convert_typst -/

/-- The `[output.typst-pdf]` configuration table (`Config` in `main.rs`). -/
structure Config where
  pdf : Bool
  custom_template : Option String
  section_number : Bool
  chapter_no_pagebreak : Bool
  rust_book : Bool

/-- A chapter of the book: `mdbook::book::Chapter` restricted to the fields
the converter reads, with the parsed event stream standing in for the raw
content. -/
structure Chapter where
  name : String
  source_path : Option String
  number : Option (List Nat)
  events : List Event

/-- Model of `mdbook::BookItem`. -/
inductive BookItem where
  | chapter (ch : Chapter) : BookItem
  | separator : BookItem
  | partTitle (t : String) : BookItem

/-- Model of the `Display` of `mdbook::book::SectionNumber`: every component
followed by a dot ("1.2."). -/
def sectionNumberToString (ns : List Nat) : String :=
  String.join (ns.map fun n => toString n ++ ".")

/-- The label derivation of `convert_book_item`:
`source_path.file_name()` (`ok_or("label not found")` when absent, modelled
as the last path component, absent when empty or `..`), then
`split('.').next()`. -/
def labelOf (p : String) : Option String :=
  let fname := (splitOnChar '/' p.data).getLastD []
  if fname = [] || fname = ['.', '.'] then none
  else some ⟨(splitOnChar '.' fname).headD []⟩

/-- The `invisible_heading` string built by `convert_book_item` for a
chapter. -/
def invisibleHeadingOf (cfg : Config) (ch : Chapter) (label : String) : String :=
  match ch.number with
  | some number =>
    if cfg.section_number then
      "#invisible-heading(level: " ++ toString number.length ++
        ", outlined: true)[#\"" ++ sectionNumberToString number ++ " " ++
        ch.name ++ "\"] <" ++ label ++ ".html>"
    else
      "#invisible-heading(level: " ++ toString number.length ++
        ", outlined: true)[" ++ ch.name ++ "] <" ++ label ++ ".html>"
  | none =>
    "#invisible-heading(level: 1, outlined: true)[" ++ ch.name ++ "] <" ++
      label ++ ".html>"

/-- The `convert_book_item` function of `convert.rs`: non-chapter items produce nothing;
a chapter derives its label, builds the invisible heading marker, converts
its content and appends the page break. -/
def convert_book_item (ctx : RenderCtx) (cfg : Config) (fs : FS) :
    BookItem → Except String (String × FS)
  | .separator => .ok ("", fs)
  | .partTitle _ => .ok ("", fs)
  | .chapter ch =>
    match ch.source_path with
    | none => .error "source_path not found"
    | some sp =>
      match labelOf sp with
      | none => .error "label not found"
      | some label =>
        match convert_content ctx ch.events label (invisibleHeadingOf cfg ch label) fs with
        | .error e => .error e
        | .ok (s, fs') => .ok (s ++ "#pagebreak(weak: true)\n", fs')

/-- The `for item in ctx.book.iter()` loop of `convert_typst`: each item's
output followed by a newline (`writeln!`). -/
def convertItems (ctx : RenderCtx) (cfg : Config) (fs : FS) :
    List BookItem → Except String (String × FS)
  | [] => .ok ("", fs)
  | it :: rest =>
    match convert_book_item ctx cfg fs it with
    | .error e => .error e
    | .ok (s, fs') =>
      match convertItems ctx cfg fs' rest with
      | .error e => .error e
      | .ok (s', fs'') => .ok (s ++ "\n" ++ s', fs'')

/-- The placeholder marker of `convert_typst` (41 ASCII characters). -/
def placeholder : String := "/**** MDBOOK_TYPST_PDF_PLACEHOLDER ****/\n"

/-- The title placeholder replaced in the template. -/
def titleMarker : String := "MDBOOK_TYPST_PDF_TITLE"

/-- The `convert_typst` function of `convert.rs`: require the book title
(`ok_or("title not found")`), substitute it into the template, convert every
book item, then insert the result after the placeholder — with
`find(placeholder).unwrap_or_default()`, so a missing placeholder defaults
the found index to 0 and the insertion point to `placeholder.len()`.
(In Rust `insert_str` panics when that index is past the template's end;
this total model saturates there, and every theorem below stays in-range.) -/
def convert_typst (title : Option String) (book : List BookItem)
    (ctx : RenderCtx) (cfg : Config) (template : String) (fs : FS) :
    Except String (String × FS) :=
  match title with
  | none => .error "title not found"
  | some t =>
    let output_template : String :=
      ⟨replaceAll titleMarker.data t.data template.data⟩
    match convertItems ctx cfg fs book with
    | .error e => .error e
    | .ok (typst_str, fs') =>
      let target := (findSubstr placeholder.data output_template.data).getD 0 +
        placeholder.length
      .ok (⟨insertAt output_template.data target typst_str.data⟩, fs')

/-! ## Shared concrete objects for witnesses and counterexamples -/

/-- A concrete render context used by witnesses. -/
def sampleCtx : RenderCtx :=
  { root := ["root"], src := some "src", destination := ["dest"] }

/-- A concrete filesystem used by witnesses: one already-materialized asset
under the destination and one pristine asset under the source tree. -/
def sampleFs : FS := fun p =>
  if p = ["dest", "img.png"] then some "data"
  else if p = ["root", "src", "pic.png"] then some "P"
  else none

/-- A concrete configuration used by witnesses. -/
def sampleCfg : Config :=
  { pdf := true, custom_template := none, section_number := false,
    chapter_no_pagebreak := false, rust_book := false }

/-! ## Helper lemmas -/

/-- The output of `escapeChars` never starts with a reserved metacharacter:
reserved characters are always preceded by the backslash the loop inserts,
and the backslash itself is not reserved. -/
theorem escapeChars_head_not_reserved (t : List Char) (d : Char) (rest : List Char)
    (h : escapeChars t = d :: rest) : is_reserved d = false := by
  cases t with
  | nil => simp [escapeChars] at h
  | cons u t' =>
    by_cases hu : is_reserved u
    · simp only [escapeChars, hu, if_true] at h
      obtain ⟨h1, -⟩ := List.cons.injEq .. ▸ h
      rw [← h1]
      decide
    · simp only [escapeChars, hu, if_false] at h
      obtain ⟨h1, -⟩ := List.cons.injEq .. ▸ h
      rw [← h1]
      exact Bool.not_eq_true _ ▸ hu

/-- Stripping a backslash-headed escaped tail keeps the backslash: the next
character of `escapeChars t` is never reserved. -/
theorem stripEscapes_backslash_escapeChars (t : List Char) :
    stripEscapes ('\\' :: escapeChars t) = '\\' :: stripEscapes (escapeChars t) := by
  cases he : escapeChars t with
  | nil => simp [stripEscapes]
  | cons d rest =>
    have hd : is_reserved d = false := escapeChars_head_not_reserved t d rest he
    simp [stripEscapes, hd]

/-- A non-backslash character is passed through by `stripEscapes`. -/
theorem stripEscapes_cons_ne (c : Char) (hb : c ≠ '\\') (rest : List Char) :
    stripEscapes (c :: rest) = c :: stripEscapes rest := by
  cases rest <;> simp [stripEscapes, hb]

/-- C6: for every text run escaped in the default (plain-prose) context,
stripping exactly one escape character immediately before each reserved
metacharacter of the output reconstructs the original text exactly, and
characters outside the reserved set pass through unchanged. -/
theorem C6_escape_roundtrip :
    (∀ t : List Char, stripEscapes (escapeChars t) = t) ∧
    (∀ t : List Char, (∀ c ∈ t, is_reserved c = false) → escapeChars t = t) := by
  constructor
  · intro t
    induction t with
    | nil => simp [escapeChars, stripEscapes]
    | cons c t' ih =>
      cases hc : is_reserved c with
      | true =>
        simp only [escapeChars, hc, if_true]
        simp [stripEscapes, hc, ih]
      | false =>
        by_cases hb : c = '\\'
        · subst hb
          simp only [escapeChars, hc, Bool.false_eq_true, if_false]
          rw [stripEscapes_backslash_escapeChars, ih]
        · simp only [escapeChars, hc, Bool.false_eq_true, if_false]
          rw [stripEscapes_cons_ne c hb, ih]
  · intro t h
    induction t with
    | nil => rfl
    | cons c t' ih =>
      have hc : is_reserved c = false := h c (List.mem_cons_self ..)
      simp only [escapeChars, hc, Bool.false_eq_true, if_false, List.cons.injEq, true_and]
      exact ih fun d hd => h d (List.mem_cons_of_mem _ hd)

/-- Witness for C6 at concrete inputs: a prose run with reserved characters
and an embedded backslash round-trips, and a run with no reserved
characters (Unicode and control characters included) is unchanged. -/
theorem C6_escape_roundtrip_witness :
    stripEscapes (escapeChars "a#b\\_c`d".data) = "a#b\\_c`d".data ∧
    escapeChars "héllo\n\twörld!".data = "héllo\n\twörld!".data :=
  ⟨C6_escape_roundtrip.1 _, C6_escape_roundtrip.2 _ (by decide)⟩

/-- C7: a `Text` event whose context-stack top is a code-block frame emits
the input text byte-for-byte with no escaping, and an `InlineCode` event
emits the literal text between the verbatim delimiters, even when the text
contains reserved metacharacters. -/
theorem C7_verbatim_preservation :
    (∀ (ctx : RenderCtx) (label inv : String) (st : St) (fs : FS) (t : String),
      (st.event_stack.head? = some .CodeBlockIndented ∨
        ∃ l, st.event_stack.head? = some (.CodeBlockFenced l)) →
      ∃ st', step ctx label inv st fs (.text t) = .ok (st', fs, t)) ∧
    (∀ (ctx : RenderCtx) (label inv : String) (st : St) (fs : FS) (t : String),
      ∃ st', step ctx label inv st fs (.code t) = .ok (st', fs, "```` " ++ t ++ " ````")) := by
  constructor
  · intro ctx label inv st fs t h
    refine ⟨if st.event_stack.contains .Heading then
      { st with heading := st.heading ++ t } else st, ?_⟩
    rcases h with h | ⟨l, h⟩ <;> simp [step, h]
  · intro ctx label inv st fs t
    exact ⟨_, rfl⟩

/-- Witness for C7: a code-block text run and an inline-code run holding
reserved metacharacters both come out verbatim. -/
theorem C7_verbatim_preservation_witness :
    (∃ st', step sampleCtx "lbl" "INV"
      { heading := "", writen_invisible_heading := false,
        event_stack := [.CodeBlockFenced "rust"] } sampleFs (.text "a#b_`<c>")
        = .ok (st', sampleFs, "a#b_`<c>")) ∧
    (∃ st', step sampleCtx "lbl" "INV" initSt sampleFs (.code "x<y@z")
        = .ok (st', sampleFs, "```` " ++ "x<y@z" ++ " ````")) :=
  ⟨C7_verbatim_preservation.1 _ _ _ _ _ _ (Or.inr ⟨"rust", rfl⟩),
   C7_verbatim_preservation.2 _ _ _ _ _ _⟩

/-- C2 counterexample: with the table-header frame on top of the stack, the
text `#` is emitted as `*#*` — bolded but NOT escaped, while the claim
requires the escaping of reserved metacharacters to be applied as well
(which would give `*\#*`). -/
theorem C2_counterexample :
    step sampleCtx "lbl" "INV"
      { heading := "", writen_invisible_heading := false, event_stack := [.TableHead] }
      sampleFs (.text "#")
      = .ok ({ heading := "", writen_invisible_heading := false,
               event_stack := [.TableHead] }, sampleFs, "*#*") ∧
    ("*#*" : String) ≠ "*" ++ escapeText "#" ++ "*" :=
  ⟨rfl, by decide⟩

/-- C2 (amended): for every `Text` event whose context-stack top is the
table-header frame, the emitted output is the raw text wrapped in the
dialect's strong-emphasis delimiters, with no escaping applied. -/
theorem C2_tablehead_bold_unescaped (ctx : RenderCtx) (label inv : String)
    (st : St) (fs : FS) (t : String)
    (h : st.event_stack.head? = some .TableHead) :
    ∃ st', step ctx label inv st fs (.text t) = .ok (st', fs, "*" ++ t ++ "*") :=
  ⟨if st.event_stack.contains .Heading then
    { st with heading := st.heading ++ t } else st, by simp [step, h]⟩

/-- Witness for the amended C2 at a concrete header cell. -/
theorem C2_tablehead_bold_unescaped_witness :
    ∃ st', step sampleCtx "lbl" "INV"
      { heading := "", writen_invisible_heading := false, event_stack := [.TableHead] }
      sampleFs (.text "Name") = .ok (st', sampleFs, "*" ++ "Name" ++ "*") :=
  C2_tablehead_bold_unescaped _ _ _ _ _ _ rfl

/-- C10: if the book's configuration has no title, `convert_typst` returns
the "title not found" error, for every book, template and filesystem — the
title is a precondition of the whole conversion, checked before any chapter
is translated. -/
theorem C10_title_not_found (book : List BookItem) (ctx : RenderCtx)
    (cfg : Config) (template : String) (fs : FS) :
    convert_typst none book ctx cfg template fs = .error "title not found" :=
  rfl

/-- A label-reference link opening (in-chapter fragment form) is never the
mailto form: the two differ at their seventh character. -/
theorem fragment_link_ne_mailto (a m d : String) :
    ("#link(<" ++ a ++ ".html" ++ m ++ ">)[") ≠ ("#link(\"mailto:" ++ d ++ "\")[") := by
  intro h
  have h' : ('#' :: 'l' :: 'i' :: 'n' :: 'k' :: '(' :: '<' :: 
        ((a.data ++ ".html".data ++ m.data) ++ ">)[".data))
      = ('#' :: 'l' :: 'i' :: 'n' :: 'k' :: '(' :: '"' :: 'm' :: 'a' :: 'i' :: 'l' :: 't' :: 'o' :: ':' :: 
        (d.data ++ "\")[".data)) :=
    congrArg String.data h
  simp at h'

/-- A label-reference link opening (plain-path form) is never the mailto
form. -/
theorem path_link_ne_mailto (m d : String) :
    ("#link(<" ++ m ++ ">)[") ≠ ("#link(\"mailto:" ++ d ++ "\")[") := by
  intro h
  have h' : ('#' :: 'l' :: 'i' :: 'n' :: 'k' :: '(' :: '<' :: (m.data ++ ">)[".data))
      = ('#' :: 'l' :: 'i' :: 'n' :: 'k' :: '(' :: '"' :: 'm' :: 'a' :: 'i' :: 'l' :: 't' :: 'o' :: ':' :: 
        (d.data ++ "\")[".data)) :=
    congrArg String.data h
  simp at h'

/-- C4 counterexample: the destination `a@bcom` does not begin with
`http://` or `https://` and contains no dot at all (so its domain part has
no dot), yet the Link Start classifies it as an email and emits the
mailto-prefixed rendering — the claim's requirement of "a domain containing
at least one dot" does not hold of the code's regex, whose final group
`(.\w{2,3})+` uses an unescaped `.`. -/
theorem C4_counterexample :
    ("a@bcom".startsWith "http://" = false) ∧
    ("a@bcom".startsWith "https://" = false) ∧
    '.' ∉ "a@bcom".data ∧
    linkOpen "lbl" "a@bcom" = "#link(\"mailto:a@bcom\")[" :=
  ⟨rfl, rfl, by decide, rfl⟩

/-- C4 (amended): for every link destination that does not begin with
`http://` or `https://`, the Link Start emits the mailto-prefixed rendering
exactly when the destination matches `EMAIL_REGEX`
(`(?i)^\w+([\.-]?\w+)*@\w+([\.-]?\w+)*(.\w{2,3})+$`); because the final
group's `.` is unescaped and matches any character, a destination whose
domain contains no dot can still be classified as an email.  A
non-matching destination falls through to the fragment/path cases, whose
renderings are never the mailto form. -/
theorem C4_email_classification (label dest : String)
    (h1 : dest.startsWith "http://" = false)
    (h2 : dest.startsWith "https://" = false) :
    (emailIsMatch dest = true ∧
      linkOpen label dest = "#link(\"mailto:" ++ dest ++ "\")[") ∨
    (emailIsMatch dest = false ∧
      linkOpen label dest ≠ "#link(\"mailto:" ++ dest ++ "\")[" ∧
      (linkOpen label dest =
        "#link(<" ++ label ++ ".html" ++
          dest.map (fun c => if c = '#' then '-' else c) ++ ">)[" ∨
       linkOpen label dest =
        "#link(<" ++ dest.map (fun c => if c = '#' then '-' else c) ++ ">)[")) := by
  have hor : (dest.startsWith "http://" || dest.startsWith "https://") = false := by
    rw [h1, h2]
    rfl
  cases hm : emailIsMatch dest with
  | true =>
    refine Or.inl ⟨rfl, ?_⟩
    simp [linkOpen, hor, hm]
  | false =>
    refine Or.inr ⟨rfl, ?_, ?_⟩
    · cases hs : dest.startsWith "#" with
      | true =>
        simpa [linkOpen, hor, hm, hs] using
          fragment_link_ne_mailto label
            (dest.map fun c => if c = '#' then '-' else c) dest
      | false =>
        simpa [linkOpen, hor, hm, hs] using
          path_link_ne_mailto
            (dest.map fun c => if c = '#' then '-' else c) dest
    · cases hs : dest.startsWith "#" with
      | true => exact Or.inl (by simp [linkOpen, hor, hm, hs])
      | false => exact Or.inr (by simp [linkOpen, hor, hm, hs])

/-- Witness for the amended C4 at the destination `a@b.co`. -/
theorem C4_email_classification_witness :
    (emailIsMatch "a@b.co" = true ∧
      linkOpen "lbl" "a@b.co" = "#link(\"mailto:" ++ "a@b.co" ++ "\")[") ∨
    (emailIsMatch "a@b.co" = false ∧
      linkOpen "lbl" "a@b.co" ≠ "#link(\"mailto:" ++ "a@b.co" ++ "\")[" ∧
      (linkOpen "lbl" "a@b.co" =
        "#link(<" ++ "lbl" ++ ".html" ++
          "a@b.co".map (fun c => if c = '#' then '-' else c) ++ ">)[" ∨
       linkOpen "lbl" "a@b.co" =
        "#link(<" ++ "a@b.co".map (fun c => if c = '#' then '-' else c) ++ ">)[")) :=
  C4_email_classification "lbl" "a@b.co" rfl rfl

/-- C3 counterexample: a chapter whose event stream is a single `End(List)`
arriving on an empty context stack converts successfully — the conversion
does NOT fail with an error reporting the chapter, contrary to the claim
(`Vec::pop` on an empty stack returns `None` and the loop continues). -/
theorem C3_counterexample :
    convert_content sampleCtx [.stop .List] "lbl" "INV" sampleFs = .ok ("", sampleFs) :=
  rfl

/-- C3 (amended): an End event of a list, table head, image, code block or
heading arriving while the context stack is empty does not panic the
translator and does not fail it either: the step succeeds (the pop is a
no-op) and the stack stays empty, so the chapter's conversion continues. -/
theorem C3_empty_stack_pop (ctx : RenderCtx) (label inv : String) (st : St)
    (fs : FS) (h : st.event_stack = []) (e : TagEnd)
    (he : e = .List ∨ e = .TableHead ∨ e = .Image ∨ e = .CodeBlock ∨ e = .Heading) :
    ∃ st' fs' chunk, step ctx label inv st fs (.stop e) = .ok (st', fs', chunk) ∧
      st'.event_stack = [] := by
  rcases he with rfl | rfl | rfl | rfl | rfl
  · exact ⟨{ st with event_stack := st.event_stack.tail }, fs, "", rfl, by simp [h]⟩
  · exact ⟨{ st with event_stack := st.event_stack.tail }, fs, "", rfl, by simp [h]⟩
  · exact ⟨{ st with event_stack := st.event_stack.tail }, fs, "\n", rfl, by simp [h]⟩
  · have h' : st.event_stack.head? = none := by rw [h]; rfl
    exact ⟨{ st with event_stack := st.event_stack.tail }, fs, "````\n",
      by simp [step, h'], by simp [h]⟩
  · cases hb : st.writen_invisible_heading with
    | true =>
      exact ⟨{ st with event_stack := st.event_stack.tail }, fs,
        headingAnchor label st.heading, by simp [step, hb], by simp [h]⟩
    | false =>
      exact ⟨{ st with writen_invisible_heading := true, event_stack := st.event_stack.tail },
        fs, headingAnchor label st.heading ++ inv ++ "\n",
        by simp [step, hb], by simp [h]⟩

/-- Witness for the amended C3: an `End(List)` on the empty initial stack. -/
theorem C3_empty_stack_pop_witness :
    ∃ st' fs' chunk,
      step sampleCtx "lbl" "INV" initSt sampleFs (.stop .List) =
        .ok (st', fs', chunk) ∧ st'.event_stack = [] :=
  C3_empty_stack_pop sampleCtx "lbl" "INV" initSt sampleFs rfl .List (Or.inl rfl)

/-- The destination path of an asset is never empty: the relative path
always splits into at least one component. -/
theorem destAssetPath_ne_nil (ctx : RenderCtx) (rel : String) :
    destAssetPath ctx rel ≠ [] := by
  simp only [destAssetPath, joinPath, ne_eq, List.append_eq_nil]
  intro h
  exact splitOnChar_ne_nil '/' rel.data (List.map_eq_nil_iff.mp h.2)

/-- The `parentDir` of any non-empty path exists. -/
theorem parentDir_of_ne_nil (p : Path) (h : p ≠ []) :
    parentDir p = some p.dropLast := by
  cases p with
  | nil => exact absurd rfl h
  | cons a l => rfl

/-- C8: on an `Image` start event, if the destination path already exists
then no copy is performed (the filesystem is returned unchanged, so the
destination's content is unchanged), no error is raised, and the figure
construct referencing the path is still emitted; a copy occurs only when
the destination does not exist (in which case the source's content is
written there). -/
theorem C8_image_copy_idempotent (ctx : RenderCtx) (label inv : String)
    (st : St) (fs : FS) (dest sd : String) (hsd : ctx.src = some sd) :
    (∀ c, fs (destAssetPath ctx dest) = some c →
      step ctx label inv st fs (.start (.Image dest)) =
        .ok ({ st with event_stack := .Image :: st.event_stack }, fs,
          "#figure(\n  image(\"" ++ dest ++ "\")\n)")) ∧
    (∀ c, fs (destAssetPath ctx dest) = none →
      fs (srcAssetPath ctx sd dest) = some c →
      step ctx label inv st fs (.start (.Image dest)) =
        .ok ({ st with event_stack := .Image :: st.event_stack },
          fsUpdate fs (destAssetPath ctx dest) c,
          "#figure(\n  image(\"" ++ dest ++ "\")\n)")) := by
  have hp := parentDir_of_ne_nil _ (destAssetPath_ne_nil ctx dest)
  constructor
  · intro c hc
    simp [step, hsd, materialize, hp, hc]
  · intro c hc hsrc
    simp [step, hsd, materialize, hp, hc, hsrc]

/-- Witness for C8: the pre-existing destination `img.png` is left as is
while the figure is still emitted, and the pristine `pic.png` is copied. -/
theorem C8_image_copy_idempotent_witness :
    (step sampleCtx "lbl" "INV" initSt sampleFs (.start (.Image "img.png")) =
      .ok ({ initSt with event_stack := [.Image] }, sampleFs,
        "#figure(\n  image(\"" ++ "img.png" ++ "\")\n)")) ∧
    (step sampleCtx "lbl" "INV" initSt sampleFs (.start (.Image "pic.png")) =
      .ok ({ initSt with event_stack := [.Image] },
        fsUpdate sampleFs (destAssetPath sampleCtx "pic.png") "P",
        "#figure(\n  image(\"" ++ "pic.png" ++ "\")\n)")) :=
  ⟨(C8_image_copy_idempotent sampleCtx "lbl" "INV" initSt sampleFs "img.png" "src"
      rfl).1 "data" rfl,
   (C8_image_copy_idempotent sampleCtx "lbl" "INV" initSt sampleFs "pic.png" "src"
      rfl).2 "P" rfl rfl⟩

/-- A 50-character template that does not contain the placeholder marker
(and is longer than the marker, so Rust's `insert_str` stays in range). -/
def longTemplate : String := "xxxxxxxxxxxxxxxxxxxxxxxxxxxxxxxxxxxxxxxxxxxxxxxxxx"

/-- C1 counterexample: for an empty book with a title and a template that
does not contain the placeholder marker, `convert_typst` does NOT return an
error — it returns `Ok` with a spliced output document (here the template
itself, the empty book contributing no text), contrary to the claim that a
missing marker is fatal for the whole book. -/
theorem C1_counterexample :
    findSubstr placeholder.data longTemplate.data = none ∧
    convert_typst (some "T") [] sampleCtx sampleCfg longTemplate sampleFs =
      .ok (longTemplate, sampleFs) :=
  ⟨by decide, rfl⟩

/-- C1 (amended): if the template (after title substitution) does not
contain the placeholder marker, `convert_typst` does not fail:
`find(placeholder).unwrap_or_default()` defaults the found index to 0 and
the chapters' text is inserted at offset `placeholder.len()` (41) into the
template.  (The length hypothesis keeps the statement where Rust's
`insert_str` is in range — on a shorter template Rust panics rather than
returning an error, still not the error return the claim demands.) -/
theorem C1_missing_placeholder_not_fatal (title template : String)
    (book : List BookItem) (ctx : RenderCtx) (cfg : Config) (fs fs' : FS)
    (typst_str : String)
    (hbook : convertItems ctx cfg fs book = .ok (typst_str, fs'))
    (hfind : findSubstr placeholder.data
      (replaceAll titleMarker.data title.data template.data) = none)
    (_hlen : placeholder.length ≤
      (replaceAll titleMarker.data title.data template.data).length) :
    convert_typst (some title) book ctx cfg template fs =
      .ok (⟨insertAt (replaceAll titleMarker.data title.data template.data)
        placeholder.length typst_str.data⟩, fs') := by
  simp [convert_typst, hbook, hfind]

/-- Witness for the amended C1: the empty book against the marker-less
50-character template. -/
theorem C1_missing_placeholder_not_fatal_witness :
    convert_typst (some "T") [] sampleCtx sampleCfg longTemplate sampleFs =
      .ok (⟨insertAt (replaceAll titleMarker.data "T".data longTemplate.data)
        placeholder.length "".data⟩, sampleFs) :=
  C1_missing_placeholder_not_fatal "T" longTemplate [] sampleCtx sampleCfg
    sampleFs sampleFs "" rfl (by decide) (by decide)

/-! ## Trace lemmas for the invisible-heading-marker claims -/

/-- The `markerCount` of the empty trace. -/
theorem markerCount_nil : markerCount [] = 0 := rfl

/-- The `markerCount` of a cons: the head contributes 1 exactly when its step
writes the marker. -/
theorem markerCount_cons (x : St × Event × String) (tr : List (St × Event × String)) :
    markerCount (x :: tr) = (if writesMarker x.1 x.2.1 then 1 else 0) + markerCount tr := by
  simp only [markerCount, List.filter_cons]
  split <;> simp [Nat.add_comm]

/-- An event is a heading end exactly when it is `End(Heading)`. -/
theorem isHeadingEnd_true {e : Event} (h : isHeadingEnd e = true) :
    e = .stop .Heading := by
  cases e with
  | start t => simp [isHeadingEnd] at h
  | stop t => cases t <;> simp_all [isHeadingEnd]
  | code t => simp [isHeadingEnd] at h
  | text t => simp [isHeadingEnd] at h
  | softBreak => simp [isHeadingEnd] at h
  | other => simp [isHeadingEnd] at h

/-- The per-chapter flag after a successful step: it is set exactly by a
heading-end event and never cleared. -/
theorem step_flag {ctx : RenderCtx} {label inv : String} {st : St} {fs : FS}
    {e : Event} {st' : St} {fs' : FS} {c : String}
    (h : step ctx label inv st fs e = .ok (st', fs', c)) :
    st'.writen_invisible_heading = (st.writen_invisible_heading || isHeadingEnd e) := by
  simp only [step] at h
  repeat' split at h
  all_goals
    try (simp only [Except.ok.injEq, Prod.mk.injEq] at h
         obtain ⟨h1, h2, h3⟩ := h
         subst h1)
  all_goals simp_all [isHeadingEnd]

/-- The chunk written by a marker-writing step: the closing anchor of the
heading, immediately followed by the invisible heading marker and its
newline. -/
theorem step_marker_chunk {ctx : RenderCtx} {label inv : String} {st : St} {fs : FS}
    {e : Event} {st' : St} {fs' : FS} {c : String}
    (h : step ctx label inv st fs e = .ok (st', fs', c))
    (hw : writesMarker st e = true) :
    c = headingAnchor label st.heading ++ inv ++ "\n" := by
  simp only [writesMarker, Bool.and_eq_true, Bool.not_eq_true'] at hw
  obtain ⟨he, hb⟩ := hw
  obtain rfl := isHeadingEnd_true he
  simp only [step, hb, Bool.false_eq_true, if_false, Except.ok.injEq,
    Prod.mk.injEq] at h
  exact h.2.2.symm

/-- Once the per-chapter flag is set, it stays set in every later state of
the trace. -/
theorem trace_flag_mono (ctx : RenderCtx) (label inv : String) :
    ∀ (es : List Event) (st : St) (fs : FS),
      st.writen_invisible_heading = true →
      ∀ x ∈ trace ctx label inv st fs es, x.1.writen_invisible_heading = true := by
  intro es
  induction es with
  | nil => intro st fs hf x hx; simp [trace] at hx
  | cons e es ih =>
    intro st fs hf x hx
    simp only [trace] at hx
    cases hstep : step ctx label inv st fs e with
    | error err => simp only [hstep] at hx; simp at hx
    | ok out =>
      obtain ⟨st', fs', c⟩ := out
      simp only [hstep, List.mem_cons] at hx
      rcases hx with rfl | hx
      · exact hf
      · exact ih st' fs' (by rw [step_flag hstep, hf]; rfl) x hx

/-- The number of marker-writing steps of a successful chapter translation:
0 once the flag is set, otherwise 1 exactly when the events contain a
heading end. -/
theorem trace_markerCount (ctx : RenderCtx) (label inv : String) :
    ∀ (es : List Event) (st : St) (fs : FS) (r : St × FS × String),
      runEvents ctx label inv st fs es = .ok r →
      markerCount (trace ctx label inv st fs es) =
        (if st.writen_invisible_heading then 0
         else if es.any isHeadingEnd then 1 else 0) := by
  intro es
  induction es with
  | nil => intro st fs r h; simp [trace, markerCount]
  | cons e es ih =>
    intro st fs r h
    simp only [runEvents] at h
    cases hstep : step ctx label inv st fs e with
    | error err => simp only [hstep] at h; exact Except.noConfusion h
    | ok out =>
      obtain ⟨st', fs', c⟩ := out
      simp only [hstep] at h
      cases hrun : runEvents ctx label inv st' fs' es with
      | error err => simp only [hrun] at h; exact Except.noConfusion h
      | ok r' =>
        have hc := ih st' fs' r' hrun
        have hf := step_flag hstep
        simp only [trace, hstep, markerCount_cons]
        rw [hc, hf]
        simp only [writesMarker, List.any_cons]
        rcases Bool.eq_false_or_eq_true st.writen_invisible_heading with hb | hb <;>
          rcases Bool.eq_false_or_eq_true (isHeadingEnd e) with hh | hh <;>
            simp [hb, hh]

/-- A chapter whose events contain no heading end never writes the
invisible heading marker, from any starting state. -/
theorem trace_no_heading (ctx : RenderCtx) (label inv : String) :
    ∀ (es : List Event) (st : St) (fs : FS),
      es.any isHeadingEnd = false →
      markerCount (trace ctx label inv st fs es) = 0 := by
  intro es
  induction es with
  | nil => intro st fs h; simp [trace, markerCount]
  | cons e es ih =>
    intro st fs h
    simp only [List.any_cons] at h
    obtain ⟨h1, h2⟩ := Bool.or_eq_false_iff.mp h
    simp only [trace]
    cases hstep : step ctx label inv st fs e with
    | error err => simp [markerCount]
    | ok out =>
      obtain ⟨st', fs', c⟩ := out
      simp only [markerCount_cons, writesMarker, h1]
      simp [ih st' fs' h2]

/-- The marker-writing step of a trace is always the first heading end: no
entry before it is a heading end, and its chunk is the closing anchor
immediately followed by the invisible heading marker. -/
theorem trace_marker_first (ctx : RenderCtx) (label inv : String) :
    ∀ (es : List Event) (st : St) (fs : FS) (tr1 : List (St × Event × String))
      (x : St × Event × String) (tr2 : List (St × Event × String)),
      trace ctx label inv st fs es = tr1 ++ x :: tr2 →
      writesMarker x.1 x.2.1 = true →
      (∀ y ∈ tr1, isHeadingEnd y.2.1 = false) ∧
      x.2.2 = headingAnchor label x.1.heading ++ inv ++ "\n" := by
  intro es
  induction es with
  | nil => intro st fs tr1 x tr2 he hw; simp [trace] at he
  | cons e es ih =>
    intro st fs tr1 x tr2 he hw
    simp only [trace] at he
    cases hstep : step ctx label inv st fs e with
    | error err => simp only [hstep] at he; simp at he
    | ok out =>
      obtain ⟨st', fs', c⟩ := out
      simp only [hstep] at he
      cases tr1 with
      | nil =>
        simp only [List.nil_append] at he
        injection he with hx htr
        subst hx
        exact ⟨fun y hy => absurd hy (List.not_mem_nil y),
          step_marker_chunk hstep hw⟩
      | cons y tr1' =>
        simp only [List.cons_append] at he
        injection he with hy htr
        obtain rfl := hy.symm
        have IH := ih st' fs' tr1' x tr2 htr hw
        refine ⟨?_, IH.2⟩
        intro z hz
        rcases List.mem_cons.mp hz with rfl | hz'
        · have hxmem : x ∈ trace ctx label inv st' fs' es := by
            rw [htr]
            exact List.mem_append_right _ (List.mem_cons_self _ _)
          have hxflag : x.1.writen_invisible_heading = false := by
            simp only [writesMarker, Bool.and_eq_true, Bool.not_eq_true'] at hw
            exact hw.2
          have hst' : st'.writen_invisible_heading = false := by
            cases hs : st'.writen_invisible_heading
            · rfl
            · exact absurd (trace_flag_mono ctx label inv es st' fs' hs x hxmem)
                (by rw [hxflag]; simp)
          have hor := step_flag hstep
          rw [hst'] at hor
          exact (Bool.or_eq_false_iff.mp hor.symm).2
        · exact IH.1 z hz'

/-- C5: for every chapter translation that succeeds, the invisible heading
marker is written exactly once when the events contain a heading end (and
never otherwise), the step that writes it is the first heading end of the
trace (no earlier step is a heading end), and its output is the heading's
closing anchor immediately followed by the marker. -/
theorem C5_marker_exactly_once (ctx : RenderCtx) (label inv : String) (fs : FS)
    (es : List Event) (r : St × FS × String)
    (hok : runEvents ctx label inv initSt fs es = .ok r) :
    markerCount (trace ctx label inv initSt fs es) =
      (if es.any isHeadingEnd then 1 else 0) ∧
    ∀ (tr1 : List (St × Event × String)) (x : St × Event × String)
      (tr2 : List (St × Event × String)),
      trace ctx label inv initSt fs es = tr1 ++ x :: tr2 →
      writesMarker x.1 x.2.1 = true →
      (∀ y ∈ tr1, isHeadingEnd y.2.1 = false) ∧
      isHeadingEnd x.2.1 = true ∧
      x.2.2 = headingAnchor label x.1.heading ++ inv ++ "\n" := by
  constructor
  · simpa [initSt] using trace_markerCount ctx label inv es initSt fs r hok
  · intro tr1 x tr2 he hw
    have hfirst := trace_marker_first ctx label inv es initSt fs tr1 x tr2 he hw
    refine ⟨hfirst.1, ?_, hfirst.2⟩
    simp only [writesMarker, Bool.and_eq_true] at hw
    exact hw.1

/-- Witness for C5: a one-heading chapter. -/
theorem C5_marker_exactly_once_witness :
    markerCount (trace sampleCtx "lbl" "INV" initSt sampleFs
        [.start (.Heading 1), .text "A", .stop .Heading]) =
      (if ([Event.start (.Heading 1), .text "A", .stop .Heading].any isHeadingEnd)
        then 1 else 0) ∧
    ∀ (tr1 : List (St × Event × String)) (x : St × Event × String)
      (tr2 : List (St × Event × String)),
      trace sampleCtx "lbl" "INV" initSt sampleFs
          [.start (.Heading 1), .text "A", .stop .Heading] = tr1 ++ x :: tr2 →
      writesMarker x.1 x.2.1 = true →
      (∀ y ∈ tr1, isHeadingEnd y.2.1 = false) ∧
      isHeadingEnd x.2.1 = true ∧
      x.2.2 = headingAnchor "lbl" x.1.heading ++ "INV" ++ "\n" :=
  C5_marker_exactly_once sampleCtx "lbl" "INV" sampleFs
    [.start (.Heading 1), .text "A", .stop .Heading]
    ({ heading := "A", writen_invisible_heading := true, event_stack := [] },
      sampleFs,
      "#heading(level: 1, outlined: false)[A] <lbl.html-a>\nINV\n")
    rfl

/-- C9: a chapter whose event stream contains no heading never writes the
invisible heading marker during its translation (even though the marker
string is unconditionally constructed by `convert_book_item`), so it
contributes no outline entry or chapter-level link target. -/
theorem C9_headingless_no_marker (ctx : RenderCtx) (label inv : String)
    (fs : FS) (es : List Event) (h : es.any isHeadingEnd = false) :
    markerCount (trace ctx label inv initSt fs es) = 0 :=
  trace_no_heading ctx label inv es initSt fs h

/-- Witness for C9: a heading-less chapter of one paragraph. -/
theorem C9_headingless_no_marker_witness :
    markerCount (trace sampleCtx "lbl" "INV" initSt sampleFs
      [.start .Paragraph, .text "hi", .stop .Paragraph]) = 0 :=
  C9_headingless_no_marker sampleCtx "lbl" "INV" sampleFs
    [.start .Paragraph, .text "hi", .stop .Paragraph] rfl

end MdbookTypstPdf
